import Mathlib

/-!
The gpt4all LLaMA backend adapter, `gpt4all-backend/llamamodel.cpp`.

A shallow embedding of the adapter's decision logic: the header probe
`LLamaModel::requiredMem`, the compatibility check `magic_match`, the
tokenizer front end `LLamaModel::tokenize`, the batch builder
`LLamaModel::evalTokens`, the sampler `LLamaModel::sampleToken` and the
load bookkeeping of `LLamaModel::loadModel`.

Conventions.  `uint32_t` and `size_t` values are natural numbers reduced
modulo `2^32` and `2^64` where the C++ arithmetic wraps; `int32_t` values are
integers and `wrap32` is the conversion into the 32-bit signed range.  Files
are byte lists, objects are stored little-endian.  The inference engine
(llama.cpp / ggml) is outside the adapter: its entry points are parameters of
the definitions that call them.
-/

namespace LLamaModel

/-! ## Header probe: `std::ifstream` and `requiredMem` -/

/-- One byte of a file. -/
abbrev Byte := Fin 256

/-- The four bytes of a `uint32_t` object, lowest address first. -/
def u32_bytes (v : Nat) : List Byte :=
  [Fin.ofNat (v % 256), Fin.ofNat (v / 256 % 256),
   Fin.ofNat (v / 65536 % 256), Fin.ofNat (v / 16777216 % 256)]

/-- The value of an object given by its bytes, lowest address first. -/
def u32_of_bytes : List Byte → Nat
  | [] => 0
  | b :: bs => b.val + 256 * u32_of_bytes bs

/-- A `std::ifstream` opened in binary mode: the bytes of the file, the get
position, and whether `fail()` holds. -/
structure ifstream where
  content : List Byte
  pos : Nat
  failed : Bool
deriving DecidableEq

namespace ifstream

/-- The constructor `std::ifstream(path, std::ios::binary)`.  A file that cannot
be opened (`none`) leaves the stream in the failed state. -/
def mk_open : Option (List Byte) → ifstream
  | some bs => { content := bs, pos := 0, failed := false }
  | none => { content := [], pos := 0, failed := true }

/-- The call `seekg(0, std::ios_base::end)`; does nothing on a failed stream. -/
def seekg_end (s : ifstream) : ifstream :=
  if s.failed then s else { s with pos := s.content.length }

/-- The call `seekg(0, std::ios_base::beg)`; does nothing on a failed stream. -/
def seekg_beg (s : ifstream) : ifstream :=
  if s.failed then s else { s with pos := 0 }

/-- The call `tellg()` converted to `size_t`: the position, or `(size_t)-1` on a
failed stream. -/
def tellg (s : ifstream) : Nat :=
  if s.failed then 2 ^ 64 - 1 else s.pos % 2 ^ 64

/-- The call `read(buf, n)`: the bytes extracted.  A failed stream extracts
nothing; a stream with fewer than `n` bytes left extracts what is there and
fails. -/
def read (s : ifstream) (n : Nat) : ifstream × List Byte :=
  if s.failed then (s, [])
  else
    let got := (s.content.drop s.pos).take n
    ({ s with pos := s.pos + got.length, failed := decide (got.length < n) }, got)

/-- The call `read(reinterpret_cast<char*>(&v), sizeof(v))` on a `uint32_t`
object `v` holding `old`: the extracted bytes overwrite the first bytes of the
object, the others keep their value. -/
def read_u32 (s : ifstream) (old : Nat) : ifstream × Nat :=
  let r := s.read 4
  (r.1, u32_of_bytes (r.2 ++ (u32_bytes old).drop r.2.length))

end ifstream

/-- The struct `llama_file_hparams` with its default member initialisers
(LLaMA 7B); `ftype` defaults to `LLAMA_FTYPE_MOSTLY_F16 = 1`. -/
structure llama_file_hparams where
  n_vocab : Nat := 32000
  n_embd : Nat := 4096
  n_mult : Nat := 256
  n_head : Nat := 32
  n_layer : Nat := 32
  n_rot : Nat := 64
  ftype : Nat := 1
deriving DecidableEq

/-- The legacy magic `0x67676a74`. -/
def GGJT_MAGIC : Nat := 0x67676a74

/-- The header fields as `requiredMem` reads them: the stream after the magic
has been accepted, then `version`, `n_vocab`, `n_embd`, `n_head`, `n_layer`,
`n_rot`, `ftype` in this order (`n_mult` is not read). -/
def read_hparams (fin : ifstream) : llama_file_hparams :=
  let r_version := fin.read_u32 0
  let hparams : llama_file_hparams := {}
  let r_vocab := r_version.1.read_u32 hparams.n_vocab
  let r_embd := r_vocab.1.read_u32 hparams.n_embd
  let r_head := r_embd.1.read_u32 hparams.n_head
  let r_layer := r_head.1.read_u32 hparams.n_layer
  let r_rot := r_layer.1.read_u32 hparams.n_rot
  let r_ftype := r_rot.1.read_u32 hparams.ftype
  { hparams with
    n_vocab := r_vocab.2, n_embd := r_embd.2, n_head := r_head.2,
    n_layer := r_layer.2, n_rot := r_rot.2, ftype := r_ftype.2 }

/-- The expression `n_embd * n_layer * 2u * n_ctx * kvcache_element_size`: the
first two products are `uint32_t` products, the last two are `size_t`
products (`n_ctx` and `kvcache_element_size` are `size_t`). -/
def est_kvcache_size (hparams : llama_file_hparams) : Nat :=
  let n_ctx : Nat := 2048
  let kvcache_element_size : Nat := 2
  (((hparams.n_embd * hparams.n_layer % 2 ^ 32) * 2 % 2 ^ 32) * n_ctx % 2 ^ 64)
    * kvcache_element_size % 2 ^ 64

/-- The function `LLamaModel::requiredMem`, on the file at `modelPath` (`none`:
the file cannot be opened). -/
def requiredMem (file : Option (List Byte)) : Nat :=
  let fin := (ifstream.mk_open file).seekg_end
  let filesize := fin.tellg
  let r_magic := fin.seekg_beg.read_u32 0
  if r_magic.2 ≠ GGJT_MAGIC then 0
  else (filesize + est_kvcache_size (read_hparams r_magic.1)) % 2 ^ 64

/-- A legacy file: the magic, a version word, the five header words the probe
reads after it in its own order, the weight-type tag, then `rest`. -/
def legacy_file (version n_vocab n_embd n_head n_layer n_rot ftype : Nat)
    (rest : List Byte) : List Byte :=
  u32_bytes GGJT_MAGIC ++ u32_bytes version ++ u32_bytes n_vocab ++ u32_bytes n_embd
    ++ u32_bytes n_head ++ u32_bytes n_layer ++ u32_bytes n_rot ++ u32_bytes ftype ++ rest

/-! ## Compatibility check: `get_arch_name` and `magic_match` -/

/-- The enum `gguf_type` of the container library. -/
inductive gguf_type where
  | UINT8 | INT8 | UINT16 | INT16 | UINT32 | INT32 | FLOAT32 | BOOL
  | STRING | ARRAY | UINT64 | INT64 | FLOAT64
deriving DecidableEq

/-- One key/value pair of a container: the key, the type tag of the value, and
the string `gguf_get_val_str` yields for it. -/
structure gguf_kv where
  key : String
  type : gguf_type
  str : String
deriving DecidableEq

/-- A container that `gguf_init_from_file` has opened: the value of
`gguf_get_version` (an `int`) and the key/value table. -/
structure gguf_context where
  version : Int
  kv : List gguf_kv
deriving DecidableEq

/-- The search loop of `gguf_find_key` from index `i` on: the index of the first
pair with the key, `-1` when there is none. -/
def gguf_find_key_from (key : String) (i : Nat) : List gguf_kv → Int
  | [] => -1
  | e :: es => if e.key = key then (i : Int) else gguf_find_key_from key (i + 1) es

/-- The library call `gguf_find_key`. -/
def gguf_find_key (ctx : gguf_context) (key : String) : Int :=
  gguf_find_key_from key 0 ctx.kv

/-- The library call `gguf_get_kv_type`: the type tag stored at `key_id`; the
table holds no tag (`none`) at an id outside it, such as the `-1` of a key that
was not found. -/
def gguf_get_kv_type (ctx : gguf_context) (key_id : Int) : Option gguf_type :=
  if 0 ≤ key_id then (ctx.kv.get? key_id.toNat).map gguf_kv.type else none

/-- The library call `gguf_get_val_str` at an id whose tag is `STRING`. -/
def gguf_get_val_str (ctx : gguf_context) (key_id : Int) : String :=
  ((ctx.kv.get? key_id.toNat).map gguf_kv.str).getD ""

/-- A C++ exception in flight. -/
inductive exception where
  | runtime_error (what : String)
deriving DecidableEq

/-- How a call ends: it returns a value, or an exception leaves it. -/
inductive outcome (α : Type) where
  | returned (value : α)
  | thrown (e : exception)
deriving DecidableEq

/-- The message of the exception `get_arch_name` throws. -/
def arch_error : exception :=
  exception.runtime_error "ERROR: Can't get general architecture from gguf file."

/-- The function `get_arch_name`: throws `std::runtime_error` unless the type
tag found for `general.architecture` is `GGUF_TYPE_STRING`. -/
def get_arch_name (ctx_gguf : gguf_context) : outcome String :=
  let kid := gguf_find_key ctx_gguf "general.architecture"
  let ktype := gguf_get_kv_type ctx_gguf kid
  if ktype ≠ some gguf_type.STRING then
    outcome.thrown arch_error
  else outcome.returned (gguf_get_val_str ctx_gguf kid)

/-- The exported function `magic_match`, on the result of `gguf_init_from_file`
(`none`: the null pointer).  The body has no handler, so an exception thrown by
`get_arch_name` leaves `magic_match` as an exception.  The messages written to
`std::cerr` are not part of the result. -/
def magic_match (opened : Option gguf_context) : outcome Bool :=
  match opened with
  | none => outcome.returned false
  | some ctx_gguf =>
    let valid := true
    let gguf_ver := ctx_gguf.version
    let valid := if valid && decide (gguf_ver > 3) then false else valid
    match get_arch_name ctx_gguf with
    | outcome.thrown e => outcome.thrown e
    | outcome.returned arch =>
      let valid :=
        if valid && !(arch == "llama" || arch == "starcoder" || arch == "falcon" || arch == "mpt")
        then false else valid
      outcome.returned valid

/-- The architecture tags `magic_match` accepts. -/
def supported_archs : List String := ["llama", "starcoder", "falcon", "mpt"]

/-- The first pair of the container keyed `general.architecture`, if any. -/
def arch_entry (ctx : gguf_context) : Option gguf_kv :=
  ctx.kv.find? (fun e => decide (e.key = "general.architecture"))

/-! ## Session state -/

/-- Conversion to `int32_t`: the representative in `[-2^31, 2^31)`. -/
def wrap32 (x : Int) : Int := (x + 2 ^ 31) % 2 ^ 32 - 2 ^ 31

/-- The fields of `LLModel::PromptContext` the adapter uses.  `tokens`, `n_past`,
`n_last_batch_tokens`, `top_k` and `repeat_last_n` are `int32_t` data; `F` is the
type of `float` values. -/
structure PromptContext (F : Type) where
  tokens : List Int
  n_past : Int
  n_last_batch_tokens : Int
  top_k : Int
  top_p : F
  temp : F
  repeat_penalty : F
  repeat_last_n : Int

/-! ## Tokenizer front end: `tokenize` -/

/-- The arguments of one `llama_tokenize` call (the output buffer is given by
its capacity `n_max_tokens`). -/
structure tokenize_args where
  text : String
  text_len : Nat
  n_max_tokens : Nat
  add_bos : Bool
  special : Bool
deriving DecidableEq

/-- The tokenizer of the loaded model: the BOS token id and `llama_tokenize`,
which returns its `int` result and the contents of the output buffer. -/
structure Tokenizer where
  llama_token_bos : Int
  llama_tokenize : tokenize_args → Int × List Int

/-- The `llama_tokenize` call `LLamaModel::tokenize` makes. -/
def tokenize_call {F : Type} (bos : Int) (ctx : PromptContext F) (str : String) :
    tokenize_args :=
  let useBOS := decide (ctx.n_past = 0) &&
    (ctx.tokens.isEmpty || decide (ctx.tokens.head? ≠ some bos))
  { text := str, text_len := str.utf8ByteSize, n_max_tokens := str.utf8ByteSize + 4,
    add_bos := useBOS, special := false }

/-- The function `LLamaModel::tokenize`: the buffer resized to the count the
tokenizer returned; `none` when that count is negative (`resize` throws). -/
def tokenize {F : Type} (tk : Tokenizer) (ctx : PromptContext F) (str : String) :
    Option (List Int) :=
  let r := tk.llama_tokenize (tokenize_call tk.llama_token_bos ctx str)
  if r.1 < 0 then none
  else some (r.2.take r.1.toNat ++ List.replicate (r.1.toNat - r.2.length) 0)

/-! ## Batch evaluation: `evalTokens` -/

/-- The struct `llama_token_data`. -/
structure llama_token_data (F : Type) where
  id : Int
  logit : F
  p : F
deriving DecidableEq

/-- The struct `llama_token_data_array`: the candidates and the `sorted` flag. -/
structure llama_token_data_array (F : Type) where
  data : List (llama_token_data F)
  sorted : Bool
deriving DecidableEq

/-- The sampling entry points of the engine.  Each stage rewrites the candidate
array it is given; the stages that take the context also act on the engine
state `S`.  `llama_sample_repetition_penalties` is called with a null context. -/
structure Sampler (F S : Type) where
  llama_n_vocab : Int
  llama_get_logits_ith : S → Int → Int → F
  llama_sample_repetition_penalties :
    llama_token_data_array F → List Int → F → F → F → llama_token_data_array F
  llama_sample_top_k : S → llama_token_data_array F → Int → Nat → S × llama_token_data_array F
  llama_sample_tail_free : S → llama_token_data_array F → F → Nat → S × llama_token_data_array F
  llama_sample_typical : S → llama_token_data_array F → F → Nat → S × llama_token_data_array F
  llama_sample_top_p : S → llama_token_data_array F → F → Nat → S × llama_token_data_array F
  llama_sample_temp : S → llama_token_data_array F → F → S × llama_token_data_array F
  llama_sample_token : S → llama_token_data_array F → S × Int

/-- The initial candidate list of `llama_sample_top_p_top_k`: one candidate per
token id below `n_vocab`, with the logit at `pos` and `p = 0.0f`. -/
def initial_candidates {F S : Type} [Zero F] (e : Sampler F S) (s : S) (pos : Int) :
    llama_token_data_array F :=
  { data := (List.range e.llama_n_vocab.toNat).map
      (fun (token_id : Nat) =>
        { id := (token_id : Int), logit := e.llama_get_logits_ith s pos (token_id : Int), p := 0 }),
    sorted := false }

/-- The conversion `(size_t) x` of a signed integer. -/
def to_size_t (x : Int) : Nat := (x % 2 ^ 64).toNat

/-- The array a callee sees through a pointer and a `size_t` count: the first
`n` entries of the memory the pointer leads to. -/
def array_at (data : List Int) (n : Nat) : List Int := data.take n

/-- The function `llama_sample_top_p_top_k`.  `last_n_tokens_data` stands for the
tokens stored from that pointer on, `last_n_tokens_size` is an `int`, converted
to `size_t` for the penalty stage. -/
def llama_sample_top_p_top_k {F S : Type} [Zero F] [One F] (e : Sampler F S) (s : S)
    (last_n_tokens_data : List Int) (last_n_tokens_size : Int) (top_k : Int)
    (top_p temp repeat_penalty : F) (pos : Int) : S × Int :=
  let candidates_p := initial_candidates e s pos
  let candidates_p :=
    e.llama_sample_repetition_penalties candidates_p
      (array_at last_n_tokens_data (to_size_t last_n_tokens_size)) repeat_penalty 0 0
  let r := e.llama_sample_top_k s candidates_p top_k 1
  let r := e.llama_sample_tail_free r.1 r.2 1 1
  let r := e.llama_sample_typical r.1 r.2 1 1
  let r := e.llama_sample_top_p r.1 r.2 top_p 1
  let r := e.llama_sample_temp r.1 r.2 temp
  e.llama_sample_token r.1 r.2

/-- The count `n_prev_toks` of `sampleToken`. -/
def n_prev_toks {F : Type} (promptCtx : PromptContext F) : Nat :=
  min (to_size_t promptCtx.repeat_last_n) promptCtx.tokens.length

/-- The function `LLamaModel::sampleToken`: the pointer argument is
`tokens.data() + tokens.size() - n_prev_toks`, the count `n_prev_toks` is
converted to the `int` parameter. -/
def sampleToken {F S : Type} [Zero F] [One F] (e : Sampler F S) (s : S)
    (promptCtx : PromptContext F) : S × Int :=
  llama_sample_top_p_top_k e s
    (promptCtx.tokens.drop (promptCtx.tokens.length - n_prev_toks promptCtx))
    (wrap32 (n_prev_toks promptCtx)) promptCtx.top_k promptCtx.top_p
    promptCtx.temp promptCtx.repeat_penalty (wrap32 (promptCtx.n_last_batch_tokens - 1))

/-- The window the repetition-penalty stage receives from `sampleToken`: the
array behind the pointer and count that `sampleToken` passes. -/
def sampleToken_window {F : Type} (promptCtx : PromptContext F) : List Int :=
  array_at (promptCtx.tokens.drop (promptCtx.tokens.length - n_prev_toks promptCtx))
    (to_size_t (wrap32 (n_prev_toks promptCtx)))

/-- One filtering stage in the words of the specification: it consumes a
candidate list and produces the next one, acting on the engine state. -/
abbrev Stage (F S : Type) := S → llama_token_data_array F → S × llama_token_data_array F

/-- The stages of the specification in their stated order: repetition penalty
(frequency and presence terms zero), top-k, tail-free at 1, typical at 1, top-p,
temperature. -/
def spec_stages {F S : Type} [Zero F] [One F] (e : Sampler F S) (window : List Int)
    (top_k : Int) (top_p temp repeat_penalty : F) : List (Stage F S) :=
  [fun s c => (s, e.llama_sample_repetition_penalties c window repeat_penalty 0 0),
   fun s c => e.llama_sample_top_k s c top_k 1,
   fun s c => e.llama_sample_tail_free s c 1 1,
   fun s c => e.llama_sample_typical s c 1 1,
   fun s c => e.llama_sample_top_p s c top_p 1,
   fun s c => e.llama_sample_temp s c temp]

/-- Running stages in order, each on the output of the one before. -/
def run_stages {F S : Type} (stages : List (Stage F S)) (s : S) (c : llama_token_data_array F) :
    S × llama_token_data_array F :=
  stages.foldl (fun acc stage => stage acc.1 acc.2) (s, c)

/-- The last `k` entries of a list, in the order of the list. -/
def last_n {α : Type} (k : Nat) (l : List α) : List α := l.drop (l.length - k)

/-- A session used in the worked examples: history `[5, 7, 9]`, ten tokens
consumed, a window of two tokens. -/
def demo_ctx : PromptContext Rat :=
  { tokens := [5, 7, 9], n_past := 10, n_last_batch_tokens := 3, top_k := 2, top_p := 1,
    temp := 1, repeat_penalty := 1, repeat_last_n := 2 }

/-- A fresh session: no history, nothing consumed. -/
def fresh_ctx : PromptContext Rat :=
  { tokens := [], n_past := 0, n_last_batch_tokens := 0, top_k := 40, top_p := 1,
    temp := 1, repeat_penalty := 1, repeat_last_n := 64 }

/-- A small deterministic engine for worked examples: four token ids, the logit
of id `t` at position `pos` is `pos + t`, the penalty stage subtracts the
coefficient from the ids of the window, top-k keeps the first `k` candidates,
the other filters keep their input, and selection takes the first candidate
and counts the call in the state. -/
def toy_sampler : Sampler Rat Nat :=
  { llama_n_vocab := 4,
    llama_get_logits_ith := fun _ pos token_id => ((pos + token_id : Int) : Rat),
    llama_sample_repetition_penalties := fun c window penalty _ _ =>
      { data := List.map
          (fun d => if d.id ∈ window then { d with logit := d.logit - penalty } else d) c.data,
        sorted := c.sorted },
    llama_sample_top_k := fun s c k _ => (s, { data := c.data.take k.toNat, sorted := true }),
    llama_sample_tail_free := fun s c _ _ => (s, c),
    llama_sample_typical := fun s c _ _ => (s, c),
    llama_sample_top_p := fun s c _ _ => (s, c),
    llama_sample_temp := fun s c _ => (s, c),
    llama_sample_token := fun s c => (s + 1, ((c.data.head?).map (fun d => d.id)).getD 0) }

/-! ## Load bookkeeping: `LLamaPrivate`, `loadModel`, `isModelLoaded` -/

/-- The state `LLamaPrivate` that `loadModel` and `isModelLoaded` use: a handle is
`none` for the null pointer and `some` address otherwise. -/
structure LLamaPrivate where
  modelLoaded : Bool
  model : Option Nat
  ctx : Option Nat
  n_threads : Int
  end_tokens : List Int
deriving DecidableEq

/-- The constructor `LLamaModel::LLamaModel()`. -/
def LLamaPrivate.new : LLamaPrivate :=
  { modelLoaded := false, model := none, ctx := none, n_threads := 0, end_tokens := [] }

/-- What the engine and the platform answer during one `loadModel` call:
`std::thread::hardware_concurrency()`, the result of
`llama_load_model_from_file_gpt4all`, the result of `llama_new_context_with_model`
and the value of `llama_token_eos`. -/
structure load_answers where
  hardware_concurrency : Nat
  loaded_model : Option Nat
  new_context : Option Nat
  token_eos : Int
deriving DecidableEq

/-- The function `LLamaModel::loadModel`: the state after the call and the
returned `bool`.  The derived parameter records are handed to the engine and
do not select the branch taken. -/
def loadModel (d : LLamaPrivate) (a : load_answers) : LLamaPrivate × Bool :=
  let d := { d with n_threads := min 4 (wrap32 (a.hardware_concurrency % 2 ^ 32 : Nat)) }
  let d := { d with model := a.loaded_model }
  if d.model.isNone then (d, false)
  else
    let d := { d with ctx := a.new_context }
    if d.ctx.isNone then (d, false)
    else
      let d := { d with end_tokens := [a.token_eos] }
      let d := { d with modelLoaded := true }
      (d, true)

/-- The function `LLamaModel::isModelLoaded`. -/
def isModelLoaded (d : LLamaPrivate) : Bool := d.modelLoaded

/-- The adapter states after any sequence of `loadModel` calls on a new adapter. -/
inductive Reachable : LLamaPrivate → Prop where
  | new : Reachable LLamaPrivate.new
  | load (d : LLamaPrivate) (a : load_answers) : Reachable d → Reachable (loadModel d a).1

/-! ## Lemmas on the header probe -/

theorem u32_of_bytes_u32_bytes (v : Nat) : u32_of_bytes (u32_bytes v) = v % 2 ^ 32 := by
  simp only [u32_bytes, u32_of_bytes, Fin.ofNat, Fin.val_mk]
  omega

theorem u32_of_bytes_four (b0 b1 b2 b3 : Byte) :
    u32_of_bytes [b0, b1, b2, b3] = b0.val + 256 * b1.val + 65536 * b2.val + 16777216 * b3.val := by
  simp only [u32_of_bytes]
  omega

/-- What the probe returns on a legacy file, in the arithmetic of the code. -/
theorem requiredMem_legacy_file (version n_vocab n_embd n_head n_layer n_rot ftype : Nat)
    (rest : List Byte) (hE : n_embd < 2 ^ 32) (hL : n_layer < 2 ^ 32) :
    requiredMem (some (legacy_file version n_vocab n_embd n_head n_layer n_rot ftype rest))
      = ((32 + rest.length) % 2 ^ 64
          + ((n_embd * n_layer % 2 ^ 32) * 2 % 2 ^ 32) * 2048 * 2) % 2 ^ 64 := by
  have hE2 := u32_of_bytes_u32_bytes n_embd
  have hL2 := u32_of_bytes_u32_bytes n_layer
  simp only [u32_bytes] at hE2 hL2
  simp [requiredMem, legacy_file, u32_bytes, ifstream.mk_open, ifstream.seekg_end,
    ifstream.tellg, ifstream.seekg_beg, ifstream.read_u32, ifstream.read, read_hparams,
    est_kvcache_size, GGJT_MAGIC]
  have hm : u32_of_bytes [Fin.ofNat 116, Fin.ofNat 106, Fin.ofNat 103, Fin.ofNat 103]
      = 1734830708 := by decide
  rw [hE2, hL2, if_pos hm, Nat.mod_eq_of_lt hE, Nat.mod_eq_of_lt hL]
  generalize n_embd * n_layer * 2 % 4294967296 * 2048 * 2 = est
  congr 1
  omega

/-- The magic is carried by exactly one sequence of four bytes. -/
theorem u32_of_bytes_eq_magic (b0 b1 b2 b3 : Byte)
    (h : u32_of_bytes [b0, b1, b2, b3] = GGJT_MAGIC) :
    [b0, b1, b2, b3] = u32_bytes GGJT_MAGIC := by
  rw [u32_of_bytes_four] at h
  have h0 := b0.isLt
  have h1 := b1.isLt
  have h2 := b2.isLt
  have h3 := b3.isLt
  simp only [GGJT_MAGIC] at h
  have e0 : b0 = 116 := Fin.ext (by change b0.val = 116; omega)
  have e1 : b1 = 106 := Fin.ext (by change b1.val = 106; omega)
  have e2 : b2 = 103 := Fin.ext (by change b2.val = 103; omega)
  have e3 : b3 = 103 := Fin.ext (by change b3.val = 103; omega)
  subst e0 e1 e2 e3
  decide

/-- Claim C9. A file that does not begin with the four bytes of the magic
`0x67676a74` (a file shorter than four bytes and a file that cannot be opened
included) makes `requiredMem` return 0, whatever else it contains. -/
theorem requiredMem_other_magic (file : Option (List Byte))
    (h : ¬ ∃ rest, file = some (u32_bytes GGJT_MAGIC ++ rest)) :
    requiredMem file = 0 := by
  match file, h with
  | none, _ => decide
  | some [], _ => decide
  | some [b0], _ =>
    have h0 := b0.isLt
    simp [requiredMem, ifstream.mk_open, ifstream.seekg_end, ifstream.tellg,
      ifstream.seekg_beg, ifstream.read_u32, ifstream.read, u32_bytes, u32_of_bytes, GGJT_MAGIC,
      Fin.ofNat]
    intro hc
    omega
  | some [b0, b1], _ =>
    have h0 := b0.isLt
    have h1 := b1.isLt
    simp [requiredMem, ifstream.mk_open, ifstream.seekg_end, ifstream.tellg,
      ifstream.seekg_beg, ifstream.read_u32, ifstream.read, u32_bytes, u32_of_bytes, GGJT_MAGIC,
      Fin.ofNat]
    intro hc
    omega
  | some [b0, b1, b2], _ =>
    have h0 := b0.isLt
    have h1 := b1.isLt
    have h2 := b2.isLt
    simp [requiredMem, ifstream.mk_open, ifstream.seekg_end, ifstream.tellg,
      ifstream.seekg_beg, ifstream.read_u32, ifstream.read, u32_bytes, u32_of_bytes, GGJT_MAGIC,
      Fin.ofNat]
    intro hc
    omega
  | some (b0 :: b1 :: b2 :: b3 :: rest), h =>
    have hne : u32_of_bytes [b0, b1, b2, b3] ≠ GGJT_MAGIC := by
      intro hc
      apply h
      refine ⟨rest, ?_⟩
      rw [← u32_of_bytes_eq_magic b0 b1 b2 b3 hc]
      rfl
    simp [requiredMem, ifstream.mk_open, ifstream.seekg_end, ifstream.tellg,
      ifstream.seekg_beg, ifstream.read_u32, ifstream.read, u32_bytes]
    intro hc
    exact absurd hc hne

/-- Witness of C9 on an eight-byte file that starts with the bytes `GGUF`. -/
theorem requiredMem_other_magic_witness :
    (¬ ∃ rest, some [0x47, 0x47, 0x55, 0x46, 3, 0, 0, 0] = some (u32_bytes GGJT_MAGIC ++ rest))
      ∧ requiredMem (some [0x47, 0x47, 0x55, 0x46, 3, 0, 0, 0]) = 0 :=
  ⟨by rintro ⟨rest, h⟩; simp [u32_bytes, GGJT_MAGIC, Fin.ofNat] at h,
   requiredMem_other_magic (some [0x47, 0x47, 0x55, 0x46, 3, 0, 0, 0])
     (by rintro ⟨rest, h⟩; simp [u32_bytes, GGJT_MAGIC, Fin.ofNat] at h)⟩

/-- On a legacy file whose products stay in range the probe returns the exact
sum `F + E*L*2*2048*2`. -/
theorem requiredMem_legacy_file_in_range
    (version n_vocab n_embd n_head n_layer n_rot ftype : Nat) (rest : List Byte)
    (hEL : n_embd * n_layer * 2 < 2 ^ 32) (hE : n_embd < 2 ^ 32) (hL : n_layer < 2 ^ 32)
    (hF : 32 + rest.length + n_embd * n_layer * 2 * 2048 * 2 < 2 ^ 64) :
    requiredMem (some (legacy_file version n_vocab n_embd n_head n_layer n_rot ftype rest))
      = (legacy_file version n_vocab n_embd n_head n_layer n_rot ftype rest).length
          + n_embd * n_layer * 2 * 2048 * 2 := by
  rw [requiredMem_legacy_file _ _ _ _ _ _ _ _ hE hL]
  have hlen : (legacy_file version n_vocab n_embd n_head n_layer n_rot ftype rest).length
      = 32 + rest.length := by
    simp [legacy_file, u32_bytes]
    omega
  rw [hlen]
  generalize hp : n_embd * n_layer = p at hEL hF ⊢
  have h1 : p % 2 ^ 32 * 2 % 2 ^ 32 = p * 2 := by omega
  rw [h1]
  omega

/-- Claim C1, failing input. A 32-byte legacy file whose header carries
embedding width 65536 and layer count 65536: the probe reads both values, yet
returns the file size 32 alone, not `32 + 65536*65536*2*2048*2`, because the
product is formed in 32-bit arithmetic. -/
theorem requiredMem_wraps_at_65536 :
    (read_hparams ((ifstream.mk_open
        (some (legacy_file 1 32000 65536 32 65536 64 1 []))).seekg_end.seekg_beg.read_u32
          0).1).n_embd = 65536
      ∧ (read_hparams ((ifstream.mk_open
        (some (legacy_file 1 32000 65536 32 65536 64 1 []))).seekg_end.seekg_beg.read_u32
          0).1).n_layer = 65536
      ∧ (legacy_file 1 32000 65536 32 65536 64 1 []).length = 32
      ∧ requiredMem (some (legacy_file 1 32000 65536 32 65536 64 1 [])) = 32
      ∧ requiredMem (some (legacy_file 1 32000 65536 32 65536 64 1 []))
          ≠ 32 + 65536 * 65536 * 2 * 2048 * 2 := by
  decide

/-! ## Theorems on the compatibility check -/

/-- The search of `gguf_find_key` agrees with `List.find?` on the key. -/
theorem gguf_find_key_from_spec (key : String) (kv : List gguf_kv) (i : Nat) :
    (kv.find? (fun e => decide (e.key = key)) = none → gguf_find_key_from key i kv = -1)
      ∧ (∀ e, kv.find? (fun e => decide (e.key = key)) = some e →
          ∃ j : Nat, gguf_find_key_from key i kv = ((i + j : Nat) : Int) ∧ kv.get? j = some e) := by
  induction kv generalizing i with
  | nil => simp [gguf_find_key_from]
  | cons x xs ih =>
    by_cases hx : x.key = key
    · simp only [gguf_find_key_from, hx, List.find?_cons, decide_True, if_true]
      refine ⟨by simp, ?_⟩
      intro e he
      exact ⟨0, by simp, by simpa using he⟩
    · simp only [gguf_find_key_from, hx, List.find?_cons, decide_False, if_false]
      refine ⟨(ih (i + 1)).1, ?_⟩
      intro e he
      obtain ⟨j, hj, hget⟩ := (ih (i + 1)).2 e he
      exact ⟨j + 1, by rw [hj]; congr 1; omega, by simpa using hget⟩

/-- The result of `get_arch_name` read off the first `general.architecture` pair. -/
theorem get_arch_name_eq (ctx : gguf_context) :
    get_arch_name ctx =
      match arch_entry ctx with
      | some e => if e.type = gguf_type.STRING then outcome.returned e.str
                  else outcome.thrown arch_error
      | none => outcome.thrown arch_error := by
  have hspec := gguf_find_key_from_spec "general.architecture" ctx.kv 0
  unfold arch_entry
  cases hfind : ctx.kv.find? (fun e => decide (e.key = "general.architecture")) with
  | none =>
    have hk := hspec.1 hfind
    simp [get_arch_name, gguf_find_key, hk, gguf_get_kv_type, arch_error]
  | some e =>
    obtain ⟨j, hj, hget⟩ := hspec.2 e hfind
    simp only [Nat.zero_add] at hj
    rw [List.get?_eq_getElem?] at hget
    by_cases ht : e.type = gguf_type.STRING
    · simp [get_arch_name, gguf_find_key, hj, gguf_get_kv_type, gguf_get_val_str, hget, ht]
    · simp [get_arch_name, gguf_find_key, hj, gguf_get_kv_type, hget, ht, arch_error]

/-- Claim C2. For a container that opens and whose `general.architecture` key is
string-typed with value `arch`, `magic_match` returns true exactly when the
version is at most 3 and `arch` is one of llama, starcoder, falcon, mpt; so it
returns false for every version above 3 and for every other tag, `gptj` and
`bert` included. -/
theorem magic_match_iff (ctx : gguf_context) (arch : String)
    (h : ∃ e, arch_entry ctx = some e ∧ e.type = gguf_type.STRING ∧ e.str = arch) :
    magic_match (some ctx)
        = outcome.returned (decide (ctx.version ≤ 3 ∧ arch ∈ supported_archs))
      ∧ (3 < ctx.version → magic_match (some ctx) = outcome.returned false)
      ∧ (arch ∉ supported_archs → magic_match (some ctx) = outcome.returned false)
      ∧ "gptj" ∉ supported_archs ∧ "bert" ∉ supported_archs := by
  obtain ⟨e, he, ht, hs⟩ := h
  have hname : get_arch_name ctx = outcome.returned arch := by
    rw [get_arch_name_eq, he]
    simp [ht, hs]
  have main : magic_match (some ctx)
      = outcome.returned (decide (ctx.version ≤ 3 ∧ arch ∈ supported_archs)) := by
    simp only [magic_match, hname, supported_archs]
    by_cases hv : ctx.version > 3
    · have hv2 : ¬ ctx.version ≤ 3 := by omega
      simp [hv, hv2]
    · have hv2 : ctx.version ≤ 3 := by omega
      simp [hv, hv2, Bool.or_assoc]
  refine ⟨main, ?_, ?_, by decide, by decide⟩
  · intro hv
    have hv2 : ¬ ctx.version ≤ 3 := by omega
    rw [main]
    simp [hv2]
  · intro ha
    rw [main]
    simp [ha]

/-- Witness of C2 on a version-3 container tagged `falcon`. -/
theorem magic_match_iff_witness :
    (∃ e, arch_entry ⟨3, [⟨"general.name", gguf_type.STRING, "demo"⟩,
            ⟨"general.architecture", gguf_type.STRING, "falcon"⟩]⟩ = some e
          ∧ e.type = gguf_type.STRING ∧ e.str = "falcon")
      ∧ magic_match (some ⟨3, [⟨"general.name", gguf_type.STRING, "demo"⟩,
            ⟨"general.architecture", gguf_type.STRING, "falcon"⟩]⟩) = outcome.returned true :=
  ⟨⟨⟨"general.architecture", gguf_type.STRING, "falcon"⟩, by decide, rfl, rfl⟩,
   (magic_match_iff ⟨3, [⟨"general.name", gguf_type.STRING, "demo"⟩,
        ⟨"general.architecture", gguf_type.STRING, "falcon"⟩]⟩ "falcon"
      ⟨⟨"general.architecture", gguf_type.STRING, "falcon"⟩, by decide, rfl, rfl⟩).1.trans
     (by decide)⟩

/-- Claim C3. `tokenize` asks the tokenizer to prepend BOS if and only if
`n_past == 0` and the history is empty or does not start with the BOS token; so
with `n_past == 0` and an empty history it asks for BOS, and with `n_past > 0`
it never does.  The request is the one `tokenize` passes to the tokenizer. -/
theorem tokenize_add_bos {F : Type} (tk : Tokenizer) (ctx : PromptContext F) (str : String) :
    ((tokenize_call tk.llama_token_bos ctx str).add_bos = true
        ↔ ctx.n_past = 0 ∧ (ctx.tokens = [] ∨ ctx.tokens.head? ≠ some tk.llama_token_bos))
      ∧ (ctx.n_past = 0 → ctx.tokens = [] →
          (tokenize_call tk.llama_token_bos ctx str).add_bos = true)
      ∧ (0 < ctx.n_past → (tokenize_call tk.llama_token_bos ctx str).add_bos = false)
      ∧ tokenize tk ctx str
          = (let r := tk.llama_tokenize (tokenize_call tk.llama_token_bos ctx str)
             if r.1 < 0 then none
             else some (r.2.take r.1.toNat ++ List.replicate (r.1.toNat - r.2.length) 0)) := by
  have hiff : (tokenize_call tk.llama_token_bos ctx str).add_bos = true
      ↔ ctx.n_past = 0 ∧ (ctx.tokens = [] ∨ ctx.tokens.head? ≠ some tk.llama_token_bos) := by
    simp [tokenize_call, List.isEmpty_iff]
  refine ⟨hiff, ?_, ?_, rfl⟩
  · intro h0 he
    exact hiff.2 ⟨h0, Or.inl he⟩
  · intro hpos
    have hne : ¬ ctx.n_past = 0 := by omega
    cases hb : (tokenize_call tk.llama_token_bos ctx str).add_bos with
    | false => rfl
    | true => exact absurd (hiff.1 hb).1 hne

/-- Witness of C3: a fresh session asks for BOS, a session with ten tokens
consumed does not. -/
theorem tokenize_add_bos_witness :
    (tokenize_call 1 fresh_ctx "hello").add_bos = true
      ∧ (tokenize_call 1 demo_ctx "hello").add_bos = false :=
  ⟨(tokenize_add_bos ⟨1, fun _ => (0, [])⟩ fresh_ctx "hello").2.1 rfl rfl,
   (tokenize_add_bos ⟨1, fun _ => (0, [])⟩ demo_ctx "hello").2.2.1 (by decide)⟩

/-! ## Theorems on batch evaluation -/

theorem wrap32_of_range (x : Int) (h1 : -2 ^ 31 ≤ x) (h2 : x < 2 ^ 31) : wrap32 x = x := by
  unfold wrap32
  omega

/-- Claim C5. The token `sampleToken` returns is the selection
`llama_sample_token` applied to the candidates obtained by running, in this
order and each on the output of the one before, the repetition penalty
(coefficient `repeat_penalty`, frequency and presence terms 0), top-k with
`k = top_k`, tail-free at 1.0, typical at 1.0, top-p with `p = top_p` and
temperature `temp`, starting from the full-vocabulary list seeded from the raw
logits at batch position `n_last_batch_tokens - 1` with prior 0. -/
theorem sampleToken_pipeline {F S : Type} [Zero F] [One F] (e : Sampler F S) (s : S)
    (promptCtx : PromptContext F)
    (hlo : -2 ^ 31 < promptCtx.n_last_batch_tokens)
    (hhi : promptCtx.n_last_batch_tokens < 2 ^ 31) :
    sampleToken e s promptCtx
        = e.llama_sample_token
            (run_stages (spec_stages e (sampleToken_window promptCtx) promptCtx.top_k
                promptCtx.top_p promptCtx.temp promptCtx.repeat_penalty) s
              (initial_candidates e s (promptCtx.n_last_batch_tokens - 1))).1
            (run_stages (spec_stages e (sampleToken_window promptCtx) promptCtx.top_k
                promptCtx.top_p promptCtx.temp promptCtx.repeat_penalty) s
              (initial_candidates e s (promptCtx.n_last_batch_tokens - 1))).2
      ∧ (initial_candidates e s (promptCtx.n_last_batch_tokens - 1)).data.length
          = e.llama_n_vocab.toNat
      ∧ (∀ i : Nat, i < e.llama_n_vocab.toNat →
          (initial_candidates e s (promptCtx.n_last_batch_tokens - 1)).data[i]?
            = some { id := (i : Int),
                     logit := e.llama_get_logits_ith s (promptCtx.n_last_batch_tokens - 1) i,
                     p := 0 }) := by
  have hw : wrap32 (promptCtx.n_last_batch_tokens - 1) = promptCtx.n_last_batch_tokens - 1 :=
    wrap32_of_range _ (by omega) (by omega)
  refine ⟨?_, by simp [initial_candidates], ?_⟩
  · simp only [sampleToken, llama_sample_top_p_top_k, hw, run_stages, spec_stages,
      List.foldl_cons, List.foldl_nil, sampleToken_window]
  · intro i hi
    simp [initial_candidates, hi]

/-- Witness of C5 on the small engine: after a batch of three the logits are
read at position 2. -/
theorem sampleToken_pipeline_witness :
    demo_ctx.n_last_batch_tokens = 3
      ∧ sampleToken toy_sampler 0 demo_ctx
        = toy_sampler.llama_sample_token
            (run_stages (spec_stages toy_sampler (sampleToken_window demo_ctx) demo_ctx.top_k
                demo_ctx.top_p demo_ctx.temp demo_ctx.repeat_penalty) 0
              (initial_candidates toy_sampler 0 (demo_ctx.n_last_batch_tokens - 1))).1
            (run_stages (spec_stages toy_sampler (sampleToken_window demo_ctx) demo_ctx.top_k
                demo_ctx.top_p demo_ctx.temp demo_ctx.repeat_penalty) 0
              (initial_candidates toy_sampler 0 (demo_ctx.n_last_batch_tokens - 1))).2 :=
  ⟨rfl, (sampleToken_pipeline toy_sampler 0 demo_ctx (by decide) (by decide)).1⟩

theorem to_size_t_of_nonneg (x : Int) (h0 : 0 ≤ x) (h1 : x < 2 ^ 31) : to_size_t x = x.toNat := by
  unfold to_size_t
  congr 1
  omega

theorem to_size_t_of_neg (x : Int) (h0 : x < 0) (h1 : -2 ^ 31 ≤ x) :
    2 ^ 64 - 2 ^ 31 ≤ to_size_t x := by
  unfold to_size_t
  omega

/-- The window is the last `n_prev_toks` entries of the history, for a history
whose length fits the `int` count. -/
theorem sampleToken_window_eq {F : Type} (promptCtx : PromptContext F)
    (hlen31 : promptCtx.tokens.length < 2 ^ 31) :
    sampleToken_window promptCtx = last_n (n_prev_toks promptCtx) promptCtx.tokens
      ∧ (sampleToken_window promptCtx).length = n_prev_toks promptCtx := by
  have hle : n_prev_toks promptCtx ≤ promptCtx.tokens.length := by
    unfold n_prev_toks
    omega
  have hlen : (promptCtx.tokens.drop (promptCtx.tokens.length - n_prev_toks promptCtx)).length
      = n_prev_toks promptCtx := by
    rw [List.length_drop]
    omega
  have hcount : to_size_t (wrap32 (n_prev_toks promptCtx)) = n_prev_toks promptCtx := by
    rw [wrap32_of_range _ (by omega) (by omega), to_size_t_of_nonneg _ (by omega) (by omega)]
    simp
  constructor
  · unfold sampleToken_window last_n array_at
    rw [hcount, List.take_of_length_le (by omega)]
  · unfold sampleToken_window array_at
    rw [hcount, List.length_take, hlen]
    omega

/-- Claim C6, counterexample. With `repeat_last_n = -1` and the history
`[5, 7, 9]` the window is the whole history: its length 3 is not
`min(-1, 3)`, and it is not the empty list of "the last `min(-1, 3)` tokens". -/
theorem sampleToken_window_negative :
    sampleToken_window { demo_ctx with repeat_last_n := -1 } = [5, 7, 9]
      ∧ ((sampleToken_window { demo_ctx with repeat_last_n := -1 }).length : Int)
          ≠ min (-1) (([5, 7, 9] : List Int).length : Int)
      ∧ sampleToken_window { demo_ctx with repeat_last_n := -1 }
          ≠ last_n (min (-1 : Int) (([5, 7, 9] : List Int).length : Int)).toNat [5, 7, 9] := by
  decide

/-- Claim C6, amended. For an `int32_t` value `repeat_last_n` and a history of
fewer than `2^31` tokens, the window handed to the repetition-penalty stage is
the last `min(repeat_last_n, len(tokens))` tokens of the history when
`repeat_last_n ≥ 0`, and the whole history when `repeat_last_n < 0`; in both
cases it is in history order and lies inside the history (it is a suffix). -/
theorem sampleToken_window_spec {F : Type} (promptCtx : PromptContext F)
    (hlo : -2 ^ 31 ≤ promptCtx.repeat_last_n) (hhi : promptCtx.repeat_last_n < 2 ^ 31)
    (hlen : promptCtx.tokens.length < 2 ^ 31) :
    (0 ≤ promptCtx.repeat_last_n →
        sampleToken_window promptCtx
            = last_n (min promptCtx.repeat_last_n.toNat promptCtx.tokens.length) promptCtx.tokens
          ∧ ((sampleToken_window promptCtx).length : Int)
            = min promptCtx.repeat_last_n (promptCtx.tokens.length : Int))
      ∧ (promptCtx.repeat_last_n < 0 → sampleToken_window promptCtx = promptCtx.tokens)
      ∧ sampleToken_window promptCtx <:+ promptCtx.tokens
      ∧ (sampleToken_window promptCtx).length ≤ promptCtx.tokens.length := by
  obtain ⟨hw, hl⟩ := sampleToken_window_eq promptCtx hlen
  refine ⟨?_, ?_, ?_, ?_⟩
  · intro h0
    have hn : n_prev_toks promptCtx
        = min promptCtx.repeat_last_n.toNat promptCtx.tokens.length := by
      unfold n_prev_toks
      rw [to_size_t_of_nonneg _ h0 hhi]
    refine ⟨by rw [hw, hn], ?_⟩
    rw [hl, hn]
    omega
  · intro hneg
    have hbig := to_size_t_of_neg _ hneg hlo
    have hn : n_prev_toks promptCtx = promptCtx.tokens.length := by
      unfold n_prev_toks
      omega
    rw [hw, hn]
    simp [last_n]
  · rw [hw]
    exact List.drop_suffix _ _
  · rw [hl]
    unfold n_prev_toks
    omega

/-- Witness of the amended C6: a window of two over `[5, 7, 9]` is `[7, 9]`. -/
theorem sampleToken_window_spec_witness :
    (0 : Int) ≤ demo_ctx.repeat_last_n ∧ demo_ctx.tokens.length < 2 ^ 31
      ∧ sampleToken_window demo_ctx = last_n (min (2 : Int).toNat 3) [5, 7, 9]
      ∧ sampleToken_window demo_ctx = [7, 9] :=
  ⟨by decide, by decide,
   ((sampleToken_window_spec demo_ctx (by decide) (by decide) (by decide)).1 (by decide)).1,
   by decide⟩

/-! ## Theorems on load bookkeeping -/

/-- On an adapter whose flag is clear (a new adapter, or one whose earlier
loads all failed) a `loadModel` call leaves `isModelLoaded()` equal to its
result, and a set flag comes with both handles non-null. -/
theorem loadModel_of_not_loaded (d : LLamaPrivate) (a : load_answers)
    (h : d.modelLoaded = false) :
    isModelLoaded (loadModel d a).1 = (loadModel d a).2
      ∧ (isModelLoaded (loadModel d a).1 = true →
          (loadModel d a).1.model ≠ none ∧ (loadModel d a).1.ctx ≠ none) := by
  unfold loadModel isModelLoaded
  cases hm : a.loaded_model <;> cases hc : a.new_context <;> simp [h]

/-- A `loadModel` call that returns true leaves the flag set and both handles
non-null, from any state. -/
theorem loadModel_of_true (d : LLamaPrivate) (a : load_answers)
    (h : (loadModel d a).2 = true) :
    isModelLoaded (loadModel d a).1 = true
      ∧ (loadModel d a).1.model ≠ none ∧ (loadModel d a).1.ctx ≠ none := by
  revert h
  unfold loadModel isModelLoaded
  cases hm : a.loaded_model <;> cases hc : a.new_context <;> simp

/-- Claim C10, failing input. A new adapter loads one file successfully and is
then asked to load a second file whose weights fail to load: the state is
reachable, the second call returns false, yet `isModelLoaded()` is still true
and the model handle is null. -/
theorem loadModel_stale_flag :
    Reachable (loadModel (loadModel LLamaPrivate.new ⟨8, some 1, some 2, 2⟩).1
        ⟨8, none, none, 2⟩).1
      ∧ (loadModel LLamaPrivate.new ⟨8, some 1, some 2, 2⟩).2 = true
      ∧ (loadModel (loadModel LLamaPrivate.new ⟨8, some 1, some 2, 2⟩).1
          ⟨8, none, none, 2⟩).2 = false
      ∧ isModelLoaded (loadModel (loadModel LLamaPrivate.new ⟨8, some 1, some 2, 2⟩).1
          ⟨8, none, none, 2⟩).1 = true
      ∧ (loadModel (loadModel LLamaPrivate.new ⟨8, some 1, some 2, 2⟩).1
          ⟨8, none, none, 2⟩).1.model = none := by
  refine ⟨Reachable.load _ _ (Reachable.load _ _ Reachable.new), ?_, ?_, ?_, ?_⟩ <;> decide

end LLamaModel
